import Mathlib

/-!
Verification development for the graph-based tool-using agent
(`backend/app/graph_agent.py` and `backend/app/agent_builder.py`).

The Python code is shallowly embedded: Python strings become `String`
(manipulated through their `List Char` code points, which matches Python's
code-point indexing, slicing and `len`), Python ints that are always
non-negative in this program become `Nat`, dictionaries with a fixed key set
become structures, and every external effect (language-model call, tool
execution, retrieval, wall clock) is an explicit input threaded into the node
functions.  `invoke_llm` never raises (it catches everything and returns a
failure string), so "model failure" for a node means an exception inside the
node's own `try` block; each such node takes an `Except String _` input whose
`error` case models that path.
-/

namespace Agent

/-! ## String helpers (Python string semantics on code points) -/

/-- First index (in code points) at which `needle` occurs in `hay`;
Python's `str.find` returning `-1` is modelled by `none` (an occurrence at
index 0 maps to `some 0`). -/
def findSub (needle : List Char) : List Char → Option Nat
  | [] => if needle.isEmpty then some 0 else none
  | c :: rest =>
    if needle.isPrefixOf (c :: rest) then some 0
    else (findSub needle rest).map (· + 1)

/-- Python's `needle in hay` substring test. -/
def strContains (hay needle : String) : Bool :=
  (findSub needle.data hay.data).isSome

/-- Python whitespace characters stripped by `str.strip()`. -/
def wsChars : List Char := [' ', '\t', '\n', '\r', '\x0b', '\x0c']

/-- Drop characters of `set` from both ends (Python `str.strip(set)`). -/
def trimBoth (set : List Char) (l : List Char) : List Char :=
  ((l.dropWhile (set.contains ·)).reverse.dropWhile (set.contains ·)).reverse

/-- Python `str.strip()` (default whitespace). -/
def pyStrip (s : String) : String := ⟨trimBoth wsChars s.data⟩

/-- Python `str.strip(chars)`. -/
def pyStripChars (set : List Char) (s : String) : String := ⟨trimBoth set s.data⟩

/-- Python slicing `s[:n]` (by code points). -/
def strTake (n : Nat) (s : String) : String := ⟨s.data.take n⟩

/-- Python slicing `s[n:]` (by code points). -/
def strDrop (n : Nat) (s : String) : String := ⟨s.data.drop n⟩

/-- Python `len(s)` (code points). -/
def strLen (s : String) : Nat := s.data.length

/-- Python `str.lower()` (the program only lowercases ASCII/CJK text, on
which Python and ASCII lowering agree). -/
def pyLower (s : String) : String := ⟨s.data.map Char.toLower⟩

/-- Python `str.upper()` restricted to ASCII, as used on the router's
one-letter reply. -/
def pyUpper (s : String) : String := ⟨s.data.map Char.toUpper⟩

/-- Python `str.startswith`. -/
def pyStartsWith (s pre : String) : Bool := pre.data.isPrefixOf s.data

/-- Python `str.endswith`. -/
def pyEndsWith (s suf : String) : Bool := suf.data.isSuffixOf s.data

/-- One pass of Python `str.replace(old, new)`: leftmost, non-overlapping.
`fuel` bounds recursion; callers pass the length of the scanned list. -/
def replaceFuel (fuel : Nat) (old new : List Char) : List Char → List Char
  | l =>
    match fuel with
    | 0 => l
    | fuel + 1 =>
      if old ≠ [] ∧ old.isPrefixOf l then
        new ++ replaceFuel fuel old new (l.drop old.length)
      else
        match l with
        | [] => []
        | c :: t => c :: replaceFuel fuel old new t

/-- Python `str.replace(old, new)` (all occurrences, left to right). -/
def pyReplace (s old new : String) : String :=
  ⟨replaceFuel s.data.length old.data new.data s.data⟩

/-- Python `str.split(sep)` with a non-empty separator: leftmost,
non-overlapping splits.  `fuel` bounds recursion. -/
def splitFuel (fuel : Nat) (sep : List Char) (l : List Char) : List (List Char) :=
  match fuel with
  | 0 => [l]
  | fuel + 1 =>
    match findSub sep l with
    | none => [l]
    | some i =>
      if sep.isEmpty then [l]
      else l.take i :: splitFuel fuel sep (l.drop (i + sep.length))

/-- Python `str.split(sep)` for non-empty `sep`. -/
def pySplit (s sep : String) : List String :=
  (splitFuel s.data.length sep.data s.data).map (⟨·⟩)

/-! ## Data model

`AgentState` embeds the `AgentState` TypedDict of `graph_agent.py`, keeping
every field that some embedded node function reads or writes.  The inert
fields `conversation_history`, `available_tools` and `human_feedback` (written
once by `run_agent` and never read by any node on the active graph) are
omitted.  `current_step` and `max_iterations` are `Nat`: in the program they
are Python ints that start at 0 resp. 10 and are only ever incremented. -/

/-- One retrieved knowledge-base passage `{document_id, original_name, content}`. -/
structure RetrievedContext where
  document_id : String
  original_name : String
  content : String
deriving DecidableEq, Repr

/-- The `arguments` dict built by `tool_executor_node`, one shape per task
category.  `arguments.get("city")` on a non-weather dict yields `None`,
modelled by `getCity`. -/
inductive ToolArgs where
  | weatherArgs (city : String)
  | searchArgs (query : String) (numResults : Nat)
  | diagramArgs (filename diagramCode diagramType : String)
  | noteArgs (filename content : String)
deriving DecidableEq, Repr

/-- Python `arguments.get("city")`. -/
def ToolArgs.getCity : ToolArgs → Option String
  | .weatherArgs c => some c
  | _ => none

/-- One entry of `tool_calls_made`. -/
structure ToolCallRec where
  tool_id : String
  tool_name : String
  task : String
  arguments : ToolArgs
  result : String
  timestamp : String
deriving DecidableEq, Repr

/-- One entry of `tool_results`. -/
structure ToolResultRec where
  tool_name : String
  task : String
  output : String
  arguments : ToolArgs
deriving DecidableEq, Repr

/-- One entry of `skipped_tasks` (always a `{task, reason}` dict in the code). -/
structure SkippedTask where
  task : String
  reason : String
deriving DecidableEq, Repr

/-- A `ToolRecord` row as seen by the agent.  `builtin_key` is the value of
`json.loads(tool.config).get("builtin_key")`; `none` also covers a config
that fails to parse as JSON, which makes `map_tool_to_task` return `None`
exactly as an absent key does. -/
structure ToolRecord where
  id : String
  name : String
  description : String
  tool_type : String
  builtin_key : Option String
  is_active : Bool
deriving DecidableEq, Repr

/-- The run state threaded through the graph. -/
structure AgentState where
  user_query : String
  plan : Option String
  current_step : Nat
  max_iterations : Nat
  tool_calls_made : List ToolCallRec
  tool_results : List ToolResultRec
  skipped_tasks : List SkippedTask
  use_knowledge_base : Bool
  retrieved_contexts : List RetrievedContext
  thoughts : List String
  observations : List String
  next_action : Option String
  needs_human_input : Bool
  reflection : Option String
  quality_score : Rat
  final_answer : Option String
  is_complete : Bool
  error : Option String
deriving DecidableEq, Repr

/-- A partial state update returned by a node.  An `Option` field set to
`none` means the key is absent from the returned dict; list fields default to
`[]` (absent) and are merged by appending, mirroring the
`Annotated[..., operator.add]` fields of the TypedDict. -/
structure Update where
  plan : Option String := none
  current_step : Option Nat := none
  retrieved_contexts : Option (List RetrievedContext) := none
  tool_calls_made : List ToolCallRec := []
  tool_results : List ToolResultRec := []
  skipped_tasks : List SkippedTask := []
  thoughts : List String := []
  observations : List String := []
  next_action : Option String := none
  needs_human_input : Option Bool := none
  reflection : Option String := none
  quality_score : Option Rat := none
  final_answer : Option String := none
  is_complete : Option Bool := none
  error : Option String := none
deriving DecidableEq, Repr

/-- LangGraph's state merge: append-annotated fields are concatenated, every
other field present in the update overwrites the old value. -/
def applyUpdate (s : AgentState) (u : Update) : AgentState :=
  { user_query := s.user_query
    plan := match u.plan with
      | some p => some p
      | none => s.plan
    current_step := u.current_step.getD s.current_step
    max_iterations := s.max_iterations
    tool_calls_made := s.tool_calls_made ++ u.tool_calls_made
    tool_results := s.tool_results ++ u.tool_results
    skipped_tasks := s.skipped_tasks ++ u.skipped_tasks
    use_knowledge_base := s.use_knowledge_base
    retrieved_contexts := u.retrieved_contexts.getD s.retrieved_contexts
    thoughts := s.thoughts ++ u.thoughts
    observations := s.observations ++ u.observations
    next_action := match u.next_action with
      | some a => some a
      | none => s.next_action
    needs_human_input := u.needs_human_input.getD s.needs_human_input
    reflection := match u.reflection with
      | some r => some r
      | none => s.reflection
    quality_score := u.quality_score.getD s.quality_score
    final_answer := match u.final_answer with
      | some f => some f
      | none => s.final_answer
    is_complete := u.is_complete.getD s.is_complete
    error := match u.error with
      | some e => some e
      | none => s.error }

/-! ## Module-level tables of `graph_agent.py` -/

/-- Fixed task category order (search before diagram). -/
def TASK_ORDER : List String := ["weather", "search", "diagram", "note"]

/-- Rain-indicating substrings checked by `detect_rain_in_text`. -/
def RAIN_KEYWORDS : List String :=
  ["雨", "阵雨", "雷阵雨", "小雨", "中雨", "大雨", "暴雨", "雨夹雪", "降雨",
   "rain", "shower", "storm", "drizzle"]

/-- Well-known Chinese city names checked literally. -/
def COMMON_CHINESE_CITIES : List String :=
  ["北京", "上海", "广州", "深圳", "天津", "杭州", "南京", "武汉",
   "成都", "重庆", "西安", "苏州", "长沙", "青岛", "厦门", "大连"]

/-- English alias → Chinese city name. -/
def ENGLISH_CITY_ALIASES : List (String × String) :=
  [("beijing", "北京"), ("shanghai", "上海"), ("guangzhou", "广州"),
   ("shenzhen", "深圳"), ("tianjin", "天津"), ("hangzhou", "杭州"),
   ("nanjing", "南京"), ("wuhan", "武汉"), ("chengdu", "成都"),
   ("chongqing", "重庆"), ("xian", "西安"), ("suzhou", "苏州"),
   ("changsha", "长沙"), ("qingdao", "青岛"), ("xiamen", "厦门"),
   ("dalian", "大连")]

/-- Chinese city → latin slug for note filenames. -/
def CITY_SLUG_OVERRIDES : List (String × String) :=
  [("北京", "beijing"), ("上海", "shanghai"), ("广州", "guangzhou"),
   ("深圳", "shenzhen"), ("天津", "tianjin"), ("杭州", "hangzhou"),
   ("南京", "nanjing"), ("武汉", "wuhan"), ("成都", "chengdu"),
   ("重庆", "chongqing"), ("西安", "xian"), ("苏州", "suzhou"),
   ("长沙", "changsha"), ("青岛", "qingdao"), ("厦门", "xiamen"),
   ("大连", "dalian")]

/-- Lead-in phrases stripped from the start of a search query. -/
def SEARCH_PREFIXES : List String :=
  ["帮我搜索", "请搜索", "搜索一下", "查一下", "查询一下", "帮我查", "请帮我查",
   "帮我找", "找一下", "请帮我搜索"]

/-- Phrases at which the search query is truncated. -/
def SEARCH_SUFFIXES : List String :=
  ["并总结", "并画", "并帮我", "并写", "然后", "顺便", "同时", "总结", "提醒",
   "写个笔记", "画个", "带伞"]

/-- Hard cap on tool calls consulted by `should_call_tool`. -/
def MAX_TOOL_CALLS : Nat := 5

/-! ## Task inference and tool resolution helpers -/

/-- Number of keywords of `kws` found in the query (checked against both the
literal and the lowercased text), times the per-keyword weight. -/
def keywordScore (q : String) (kws : List String) (w : Nat) : Nat :=
  w * (kws.filter (fun k => strContains q k || strContains (pyLower q) k)).length

/-- `infer_tool_tasks`: keyword scoring per category, then the categories with
a positive score in `TASK_ORDER` order. -/
def infer_tool_tasks (query : String) : List String :=
  if query = "" then []
  else
    let weatherIndicators : List String :=
      ["天气", "气温", "下雨", "降雨", "明天", "今天", "后天", "weather", "forecast"]
    let hasCity := COMMON_CHINESE_CITIES.any (fun c => strContains query c)
    let hasTime := ["明天", "今天", "后天", "tomorrow", "today"].any
      (fun t => strContains query t)
    let weatherScore := keywordScore query weatherIndicators 10 +
      (if hasCity ∧ hasTime then 15 else 0)
    let searchScore := keywordScore query
      ["搜索", "查找", "搜一下", "research", "最新进展", "扩散模型"] 8
    let diagramScore := keywordScore query
      ["思维导图", "流程图", "画图", "绘制", "diagram", "导图", "画个"] 10
    let noteScore := keywordScore query
      ["笔记", "提醒", "记录", "备忘", "带伞", "提醒我", "写个笔记"] 10
    let score : String → Nat := fun t =>
      if t = "weather" then weatherScore
      else if t = "search" then searchScore
      else if t = "diagram" then diagramScore
      else if t = "note" then noteScore
      else 0
    TASK_ORDER.filter (fun t => 0 < score t)

/-- `map_tool_to_task`: builtin key → task category; `none` for non-builtin
tools, unparseable configs and unknown keys. -/
def map_tool_to_task (t : ToolRecord) : Option String :=
  if t.tool_type ≠ "builtin" then none
  else match t.builtin_key with
    | some "get_weather" => some "weather"
    | some "web_search" => some "search"
    | some "draw_diagram" => some "diagram"
    | some "write_note" => some "note"
    | _ => none

/-- The set `{call.get("task") for call in tool_calls_made if call.get("task")}`
as a list (truthiness drops the empty string). -/
def completedTasks (calls : List ToolCallRec) : List String :=
  calls.filterMap (fun c => if c.task = "" then none else some c.task)

/-- The set of truthy `task` keys of `skipped_tasks` (entries are always
dicts in the embedded records). -/
def skippedTaskKeys (sk : List SkippedTask) : List String :=
  sk.filterMap (fun i => if i.task = "" then none else some i.task)

/-- `should_call_tool`: is some inferred category still pending? -/
def should_call_tool (s : AgentState) : Bool :=
  if MAX_TOOL_CALLS ≤ s.tool_calls_made.length then false
  else
    let tasks := infer_tool_tasks s.user_query
    if tasks = [] then false
    else
      let completed := completedTasks s.tool_calls_made
      let skipped := skippedTaskKeys s.skipped_tasks
      tasks.any (fun task =>
        if task ∈ completed ∨ task ∈ skipped then false
        else if task = "note" ∧ "weather" ∈ tasks ∧ "weather" ∉ completed ∧
            "weather" ∉ skipped then false
        else true)

/-! ### City extraction (`extract_city_from_query`)

The two `re.search` calls are embedded with explicit leftmost-match scans:
a Python regex match is found at the smallest starting index, with greedy
quantifiers backtracking from the longest candidate. -/

/-- Characters matched by the class `[一-龥]`. -/
def isCJK (c : Char) : Bool := 0x4E00 ≤ c.toNat ∧ c.toNat ≤ 0x9FA5

/-- The alternation `(?:天气|明天|今日|现在|未来)`. -/
def cnCitySuffixes : List String := ["天气", "明天", "今日", "现在", "未来"]

/-- Try `([一-龥]{2,5})(?:天气|明天|今日|现在|未来)` at this position:
greedy group of 5 down to 2 CJK characters followed by a suffix word. -/
def cnMatchAt (cs : List Char) : Option (List Char) :=
  let tryK : Nat → Option (List Char) := fun k =>
    let grp := cs.take k
    if grp.length = k ∧ grp.all isCJK ∧
        cnCitySuffixes.any (fun w => w.data.isPrefixOf (cs.drop k)) then
      some grp
    else none
  ((((tryK 5).orElse fun _ => tryK 4).orElse fun _ => tryK 3).orElse fun _ => tryK 2)

/-- Leftmost match of the Chinese city pattern. -/
def cnSearch : List Char → Option (List Char)
  | [] => none
  | c :: rest =>
    match cnMatchAt (c :: rest) with
    | some g => some g
    | none => cnSearch rest

/-- Characters matched by `\s` (same set as Python's `str.strip()` default). -/
def isPyWs (c : Char) : Bool := wsChars.contains c

/-- Characters matched by the class `[A-Za-z\s]`. -/
def isEnGroupChar (c : Char) : Bool := c.isAlpha || isPyWs c

/-- Try `in\s+([A-Za-z\s]+)` (case-insensitive) at this position.  The greedy
`\s+` first takes the whole whitespace run; if no group character follows it
backs off one character so the group captures that single whitespace. -/
def enMatchAt (cs : List Char) : Option (List Char) :=
  match cs with
  | c1 :: c2 :: rest =>
    if c1.toLower = 'i' ∧ c2.toLower = 'n' then
      let w := rest.takeWhile isPyWs
      let after := rest.drop w.length
      let grp := after.takeWhile isEnGroupChar
      if w.length = 0 then none
      else if grp ≠ [] then some grp
      else if 2 ≤ w.length then some [w.getLastD ' ']
      else none
    else none
  | _ => none

/-- Leftmost match of the English city pattern. -/
def enSearch : List Char → Option (List Char)
  | [] => none
  | c :: rest =>
    match enMatchAt (c :: rest) with
    | some g => some g
    | none => enSearch rest

/-- Python `str.title()` on ASCII text: uppercase a letter that follows a
non-letter, lowercase the other letters. -/
def pyTitleGo : Bool → List Char → List Char
  | _, [] => []
  | prevAlpha, c :: t =>
    let c' := if c.isAlpha then (if prevAlpha then c.toLower else c.toUpper) else c
    c' :: pyTitleGo c.isAlpha t

/-- Python `str.title()`. -/
def pyTitle (s : String) : String := ⟨pyTitleGo false s.data⟩

/-- `extract_city_from_query`: literal city list, then English aliases, then
the two regexes, else the default city. -/
def extract_city_from_query (query : String) : String :=
  if query = "" then "北京"
  else
    match COMMON_CHINESE_CITIES.find? (fun c => strContains query c) with
    | some c => c
    | none =>
      let lowerQuery := pyLower query
      match ENGLISH_CITY_ALIASES.find? (fun p => strContains lowerQuery p.1) with
      | some p => p.2
      | none =>
        match cnSearch query.data with
        | some g => ⟨g⟩
        | none =>
          match enSearch query.data with
          | some g =>
            let candidate := pyStrip ⟨g⟩
            let aliasKey := pyLower candidate
            match ENGLISH_CITY_ALIASES.find? (fun p => p.1 = aliasKey) with
            | some p => p.2
            | none => pyTitle candidate
          | none => "北京"

/-! ### Search query extraction (`extract_search_query`) -/

/-- The processing pipeline of `extract_search_query` before its final
fallback: strip whitespace, drop the first matching lead-in phrase, truncate
at the first listed phrase found at a positive index, trim the punctuation
set from both ends. -/
def extract_search_core (query : String) : String :=
  let cleaned := pyStrip query
  let cleaned := match SEARCH_PREFIXES.find? (fun p => pyStartsWith cleaned p) with
    | some p => pyStrip (strDrop (strLen p) cleaned)
    | none => cleaned
  let cleaned := match SEARCH_SUFFIXES.find? (fun suf =>
      match findSub suf.data cleaned.data with
      | some idx => 0 < idx
      | none => false) with
    | some suf =>
      match findSub suf.data cleaned.data with
      | some idx => pyStrip (strTake idx cleaned)
      | none => cleaned
    | none => cleaned
  pyStripChars "，。,.!?；; ".data cleaned

/-- `extract_search_query`; the empty pipeline result falls back to
`query.strip()` (the `cleaned or query.strip()` return). -/
def extract_search_query (query : String) : String :=
  if query = "" then ""
  else
    let core := extract_search_core query
    if core = "" then pyStrip query else core

/-! ### Rain detection and note building -/

/-- `detect_rain_in_text`: any rain keyword in the text or its lowercase. -/
def detect_rain_in_text (text : String) : Bool :=
  if text = "" then false
  else RAIN_KEYWORDS.any (fun k => strContains text k || strContains (pyLower text) k)

/-- Collapse every maximal run of two or more dashes to one dash. -/
def squeezeDashes : List Char → List Char
  | [] => []
  | [c] => [c]
  | c :: d :: t =>
    if c = '-' ∧ d = '-' then squeezeDashes (d :: t) else c :: squeezeDashes (d :: t)

/-- `re.sub(r"[^A-Za-z0-9]+", "-", s)`: each maximal non-alphanumeric run
becomes a single dash. -/
def collapseNonAlnum (l : List Char) : List Char :=
  squeezeDashes (l.map (fun c => if c.isAlphanum then c else '-'))

/-- `build_note_filename`; `date8` is `datetime.now().strftime("%Y%m%d")`. -/
def build_note_filename (city date8 : String) : String :=
  let slug0 := ((CITY_SLUG_OVERRIDES.find? (fun p => p.1 = city)).map (·.2)).getD city
  let slug1 : String := ⟨collapseNonAlnum slug0.data⟩
  let slug2 := pyLower (pyStripChars ['-'] slug1)
  let slug := if slug2 = "" then "reminder" else slug2
  slug ++ "_umbrella_" ++ date8 ++ ".txt"

/-- `summarize_for_note`. -/
def summarize_for_note (text : String) (limit : Nat := 200) : String :=
  if text = "" then "天气信息缺失"
  else
    strTake limit
      (pyStrip (pyReplace (pyReplace (pyReplace text "\r" " ") "\n\n" "\n") "\n" " "))

/-- Python `sep.join(list)`. -/
def joinSep (sep : String) : List String → String
  | [] => ""
  | [x] => x
  | x :: y :: t => x ++ sep ++ joinSep sep (y :: t)

/-- `build_note_content`; `nowMin` is `datetime.now().strftime("%Y-%m-%d %H:%M")`. -/
def build_note_content (city weather_text user_query nowMin : String) : String :=
  let summary := summarize_for_note weather_text
  joinSep "\n"
    ["# " ++ city ++ "带伞提醒", "",
     "创建时间：" ++ nowMin,
     "触发查询：" ++ user_query, "",
     "## 天气情况", summary, "",
     "## 温馨提示",
     "- 今日可能有降雨，建议携带雨具",
     "- 出门前请再次查看最新天气"] ++ "\n"

/-! ### Diagram payload construction -/

/-- Topic cleaning shared by both diagram payload builders: remove each
listed phrase everywhere (in order), strip the punctuation set, cap at 30
characters. -/
def diagramTopic (topic_source : String) : String :=
  let topic := topic_source
  let topic := pyReplace topic "帮我搜索" ""
  let topic := pyReplace topic "搜索" ""
  let topic := pyReplace topic "画个" ""
  let topic := pyReplace topic "绘制" ""
  let topic := pyReplace topic "生成" ""
  let topic := pyReplace topic "总结关键点" ""
  let topic := pyReplace topic "并画个思维导图" ""
  let topic := pyReplace topic "画个思维导图" ""
  let topic := pyReplace topic "思维导图" ""
  let topic := pyStripChars "，。、 ".data topic
  if 30 < strLen topic then strTake 30 topic else topic

/-- Diagram kind selection: mindmap when the raw query mentions one. -/
def diagramIsMindmap (topic_source : String) : Bool :=
  ["思维导图", "导图", "mindmap"].any (fun k => strContains topic_source k)

/-- `re.sub(r"^\d+[\.、]", "", line)`: drop a leading digit run followed by
a dot or enumeration comma. -/
def stripLeadingNum (s : String) : String :=
  let ds := s.data.takeWhile Char.isDigit
  match s.data.drop ds.length with
  | c :: rest => if ds ≠ [] ∧ (c = '.' ∨ c = '、') then ⟨rest⟩ else s
  | [] => s

/-- `re.sub(r"^[•\-\*]", "", line)`: drop one leading bullet character. -/
def stripLeadingBullet (s : String) : String :=
  match s.data with
  | c :: rest => if c = '•' ∨ c = '-' ∨ c = '*' then ⟨rest⟩ else s
  | [] => s

/-- Key-point extraction of `generate_diagram_payload` from the first six
lines of the search text. -/
def diagramKeyPoints (search_context : String) : List String :=
  ((pySplit search_context "\n").take 6).filterMap (fun line =>
    let line := pyStrip line
    if line ≠ "" ∧ 10 < strLen line ∧ strLen line < 100 then
      let line := pyStrip (stripLeadingBullet (stripLeadingNum line))
      if line ≠ "" then some (strTake 50 line) else none
    else none)

/-- The `points_section` loop: up to four numbered branches, each followed by
a filler sub-branch while points remain (`chr(65+i)`). -/
def pointsSectionGo (total : Nat) (i : Nat) : List String → List String
  | [] => []
  | p :: t =>
    ("    分支" ++ toString i ++ "：" ++ strTake 25 p) ::
      ((if i < total then ["      详细" ++ String.singleton (Char.ofNat (65 + i))]
        else []) ++ pointsSectionGo total (i + 1) t)

/-- The flowchart template shared by both diagram builders. -/
def flowchartCode (topic : String) : String :=
  "flowchart TD\n    A[需求：" ++ strTake 20 topic ++
    "] --> B\x7b信息收集\x7d\n    B --> C[分析处理]\n    C --> D\x7b决策\x7d\n    D --> E[执行]\n    E --> F[完成]"

/-- `generate_diagram_payload`: deterministic mindmap/flowchart arguments,
optionally seeded with key points from the search text. -/
def generate_diagram_payload (user_query : String) (search_context : Option String) :
    ToolArgs :=
  let topic_source := if user_query = "" then "主题" else user_query
  let topic := diagramTopic topic_source
  if diagramIsMindmap topic_source then
    let code :=
      match search_context with
      | some sc =>
        if sc ≠ "" then
          let keyPoints := diagramKeyPoints sc
          if keyPoints ≠ [] then
            "mindmap\n  root((" ++ topic ++ "))\n" ++
              joinSep "\n" (pointsSectionGo keyPoints.length 1 (keyPoints.take 4))
          else
            "mindmap\n  root((" ++ topic ++
              "))\n    核心概念\n      定义\n      特点\n    应用场景\n      领域1\n      领域2\n    发展趋势\n      最新进展\n      未来方向"
        else
          "mindmap\n  root((" ++ topic ++
            "))\n    信息收集\n      关键点1\n      关键点2\n    分析判断\n      风险\n      机会\n    行动方案\n      下一步建议"
      | none =>
        "mindmap\n  root((" ++ topic ++
          "))\n    信息收集\n      关键点1\n      关键点2\n    分析判断\n      风险\n      机会\n    行动方案\n      下一步建议"
    .diagramArgs (pyReplace (strTake 20 topic) " " "_" ++ "_mindmap.md") code "mindmap"
  else
    .diagramArgs (pyReplace (strTake 20 topic) " " "_" ++ "_flowchart.md")
      (flowchartCode topic) "flowchart"

/-- `generate_diagram_payload_with_llm`, deterministic in the model reply
(`invoke_llm` itself never raises): extract the fenced Mermaid block from the
reply and fall back to a canned mindmap when it does not start with
`mindmap`. -/
def generate_diagram_payload_with_llm (user_query reply : String) : ToolArgs :=
  let topic_source := if user_query = "" then "主题" else user_query
  let topic := diagramTopic topic_source
  if diagramIsMindmap topic_source then
    let code0 := pyStrip reply
    let code1 :=
      if strContains code0 "```mermaid" then
        pyStrip ((pySplit ((pySplit code0 "```mermaid").getD 1 "") "```").getD 0 "")
      else if strContains code0 "```" then
        pyStrip ((pySplit ((pySplit code0 "```").getD 1 "") "```").getD 0 "")
      else code0
    let code :=
      if ¬ pyStartsWith code1 "mindmap" then
        "mindmap\n  root((" ++ topic ++
          "))\n    核心概念\n      定义与特点\n      应用领域\n    最新进展\n      技术突破\n      行业动态\n    发展趋势\n      未来方向\n      潜在影响"
      else code1
    .diagramArgs (pyReplace (pyReplace (strTake 20 topic) " " "_") "/" "_" ++ "_mindmap.md")
      code "mindmap"
  else
    .diagramArgs (pyReplace (pyReplace (strTake 20 topic) " " "_") "/" "_" ++ "_flowchart.md")
      (flowchartCode topic) "flowchart"

/-! ## Node functions

Each node is a pure function of the state and its explicit external inputs,
returning the partial update it hands back to the engine. -/

/-- The fields `planner_node` reads from `parse_json_from_llm`'s result
(`.get` with defaults); an absent field is `none`.  The JSON decoding itself
belongs to the external model reply and is part of the oracle input. -/
structure PlanData where
  task_type : Option String
  analysis : Option String
  steps : Option (List String)
  expected_result : Option String
deriving DecidableEq, Repr

/-- `f"{i+1}. {step}"` enumeration of the plan steps. -/
def enumLines (i : Nat) : List String → List String
  | [] => []
  | x :: t => (toString i ++ ". " ++ x) :: enumLines (i + 1) t

/-- `planner_node`: format the model's plan, or the canned fallback plan on
an exception; always step 0 and `next_action = "route"`. -/
def planner_node (inp : Except String PlanData) (s : AgentState) : Update :=
  match inp with
  | .ok d =>
    let task_type := d.task_type.getD "信息查询"
    let analysis := d.analysis.getD "分析任务中..."
    let steps := d.steps.getD ["分析问题", "生成答案"]
    let plan_text :=
      "任务类型：" ++ task_type ++ "\n任务分析：" ++ analysis ++
        "\n\n执行步骤：\n" ++ joinSep "\n" (enumLines 1 steps) ++
        "\n\n预期结果：" ++ d.expected_result.getD "为用户提供准确答案" ++ "\n"
    { plan := some plan_text,
      current_step := some 0,
      thoughts := ["智能规划完成：识别为【" ++ task_type ++ "】，共 " ++
        toString steps.length ++ " 个步骤"],
      next_action := some "route" }
  | .error e =>
    let fallback_plan :=
      "任务分析：用户询问「" ++ s.user_query ++
        "」\n\n执行步骤：\n1. 根据问题选择合适的处理方式\n2. 收集必要的信息\n3. 生成完整答案\n\n预期结果：为用户提供有用的回答\n"
    { plan := some fallback_plan,
      current_step := some 0,
      thoughts := ["使用简化规划模式（规划器异常：" ++ strTake 50 e ++ "）"],
      next_action := some "route" }

/-- `router_node`: hard iteration cap, step-0 heuristics, model decision with
the anti-loop guard, and the rule-based fallback on a model exception.
Every branch returns `current_step + 1`. -/
def router_node (llm : Except String String) (s : AgentState) : Update :=
  let current_step := s.current_step
  let max_iterations := s.max_iterations
  if max_iterations ≤ current_step then
    { next_action := some "synthesize",
      thoughts := ["已达到最大迭代次数(" ++ toString max_iterations ++ ")，准备生成最终答案"],
      current_step := some (current_step + 1) }
  else
    let kbSearchedObs := s.observations.any (fun obs => strContains obs "知识库")
    if current_step = 0 ∧ s.use_knowledge_base ∧ ¬kbSearchedObs then
      { next_action := some "search_kb",
        thoughts := ["首次执行：优先检索知识库"],
        current_step := some (current_step + 1) }
    else if current_step = 0 ∧ should_call_tool s then
      { next_action := some "tool_executor",
        thoughts := ["首次执行：检测到需要工具调用"],
        current_step := some (current_step + 1) }
    else
      let kbAlreadySearched := ¬s.retrieved_contexts.isEmpty ∨
        s.observations.any (fun obs => strContains obs "知识库" || strContains obs "检索到")
      match llm with
      | .ok reply =>
        let decision := pyUpper (pyStrip reply)
        let na0 :=
          if decision = "A" then "search_kb"
          else if decision = "B" then "tool_executor"
          else if decision = "C" then "synthesize"
          else "synthesize"
        let chosen :=
          if na0 = "search_kb" ∧ kbAlreadySearched then
            if should_call_tool s then
              ("tool_executor", "LLM选择A但已检索过知识库，改为调用工具")
            else
              ("synthesize", "LLM选择A但已检索过知识库，改为生成答案")
          else (na0, "LLM 智能路由：" ++ decision ++ " -> " ++ na0)
        { next_action := some chosen.1,
          thoughts := [chosen.2],
          current_step := some (current_step + 1) }
      | .error _ =>
        let chosen :=
          if s.use_knowledge_base ∧ ¬kbAlreadySearched ∧ current_step < 2 then
            ("search_kb", "降级决策：检索知识库")
          else if kbAlreadySearched ∧ 2 ≤ current_step then
            if should_call_tool s then
              ("tool_executor", "降级决策：已检索过知识库，调用工具")
            else
              ("synthesize", "降级决策：已检索过知识库，生成答案")
          else if should_call_tool s then
            ("tool_executor", "降级决策：调用工具")
          else
            ("synthesize", "降级决策：生成答案")
        { next_action := some chosen.1,
          thoughts := [chosen.2],
          current_step := some (current_step + 1) }

/-- `knowledge_search_node`: retrieval outcome with per-passage truncation to
500 characters; failure degrades to empty contexts plus an error. -/
def knowledge_search_node (retrieval : Except String (List RetrievedContext))
    (_s : AgentState) : Update :=
  match retrieval with
  | .ok contexts =>
    let retrieved := contexts.map (fun c => { c with content := strTake 500 c.content })
    { retrieved_contexts := some retrieved,
      observations := ["从知识库检索到 " ++ toString retrieved.length ++ " 个相关片段"],
      thoughts := ["知识库检索完成，获取到相关背景信息"] }
  | .error e =>
    { retrieved_contexts := some [],
      observations := ["知识库检索失败: " ++ e],
      error := some e }

/-- `reflector_node`: fixed quality score by information presence. -/
def reflector_node (s : AgentState) : Update :=
  let hasInfo := ¬s.tool_results.isEmpty ∨ ¬s.retrieved_contexts.isEmpty
  let quality_score : Rat := if hasInfo then 7 / 10 else 3 / 10
  let reflection :=
    if hasInfo then "已收集到相关信息，可以尝试生成答案"
    else "信息收集不足，可能需要更多检索或工具调用"
  { reflection := some reflection,
    quality_score := some quality_score,
    needs_human_input := some (decide (quality_score < 1 / 2 ∧ 3 < s.current_step)),
    thoughts := ["反思结果：质量评分 " ++ (if hasInfo then "0.70" else "0.30")] }

/-! ### Synthesizer -/

/-- The local `truncate` helper of the synthesizer's fallback. -/
def synthTruncate (text : String) (limit : Nat := 400) : String :=
  if text = "" then ""
  else
    let cleaned := pyStrip text
    if strLen cleaned ≤ limit then cleaned else strTake limit cleaned ++ "..."

/-- `results_by_task.get(key, ...)`: the tool results whose task is `key`,
in arrival order. -/
def resultsByTaskGet (results : List ToolResultRec) (key : String) : List ToolResultRec :=
  results.filter (fun r => r.task = key)

/-- The fallback sections, grouped by task category, with the first knowledge
passage as a last resort. -/
def synth_sections (s : AgentState) : List String :=
  let weatherSec :=
    match (resultsByTaskGet s.tool_results "weather").getLast? with
    | some latest =>
      let heading := "### 天气信息" ++
        (match latest.arguments.getCity with
         | some city => if city ≠ "" then "（" ++ city ++ "）" else ""
         | none => "")
      [heading ++ "\n" ++ synthTruncate latest.output]
    | none => []
  let searchSec :=
    match (resultsByTaskGet s.tool_results "search").getLast? with
    | some latest => ["### 搜索结果\n" ++ synthTruncate latest.output]
    | none => []
  let diagramSec :=
    match (resultsByTaskGet s.tool_results "diagram").getLast? with
    | some latest => ["### 思维导图\n" ++ synthTruncate latest.output 200]
    | none => []
  let noteSec :=
    match (resultsByTaskGet s.tool_results "note").getLast? with
    | some latest => ["### 提醒笔记\n" ++ synthTruncate latest.output]
    | none => []
  let sections := weatherSec ++ searchSec ++ diagramSec ++ noteSec
  if sections = [] ∧ ¬s.retrieved_contexts.isEmpty then
    match s.retrieved_contexts.head? with
    | some first =>
      ["### 知识库内容（来自" ++ first.original_name ++ "）\n" ++ synthTruncate first.content]
    | none => []
  else sections

/-- The deterministic fallback answer assembled when the synthesis model
call raises; `e` is the exception text. -/
def synth_fallback_answer (s : AgentState) (e : String) : String :=
  let sections := synth_sections s
  if sections = [] then
    "关于您的问题「" ++ s.user_query ++
      "」，我目前没有找到足够的信息。\n\n建议：\n1. 您可以尝试上传相关文档到知识库\n2. 或者换一个更具体的问题\n\n（注：系统当前使用降级模式，原因：" ++
      strTake 100 e ++ "）"
  else
    (if s.user_query ≠ "" then "根据您的问题「" ++ s.user_query ++ "」，为您整理如下："
     else "以下是为您找到的信息：") ++ "\n\n" ++ joinSep "\n\n" sections

/-- `synthesizer_node`.  The context/prompt assembly before the `try` block
only feeds the model prompt and, over the typed state records, cannot raise;
the update is the model's answer or the deterministic fallback. -/
def synthesizer_node (llm : Except String String) (s : AgentState) : Update :=
  match llm with
  | .ok reply =>
    { final_answer := some reply,
      is_complete := some true,
      thoughts := ["LLM 已生成综合答案"] }
  | .error e =>
    { final_answer := some (synth_fallback_answer s e),
      is_complete := some true,
      thoughts := ["使用降级模式生成答案（LLM 异常：" ++ strTake 50 e ++ "）"] }

/-! ### Tool executor -/

/-- The `datetime.now()` reads of one executor invocation. -/
structure Clock where
  date8 : String
  dateMin : String
  iso : String
deriving DecidableEq, Repr

/-- External inputs of one `tool_executor_node` invocation: the
`execute_tool` outcome (`error` = exception), the model reply inside
`generate_diagram_payload_with_llm` (`error` = an exception in that helper,
caught by the executor's fallback), and the clock. -/
structure ExecInputs where
  toolOutcome : Except String String
  diagramLlm : Except String String
  clock : Clock
deriving Repr

/-- `tool_index.get(task)`: the first active tool whose builtin key maps to
the task (the source builds a first-wins dict over `tool_records` and looks
the task up; the composition is this first match). -/
def toolForTask (tools : List ToolRecord) (k : String) : Option ToolRecord :=
  tools.find? (fun r => r.is_active && map_tool_to_task r == some k)

/-- The first inferred task that is neither completed nor skipped. -/
def pendingTask (s : AgentState) : Option String :=
  (infer_tool_tasks s.user_query).find? (fun t =>
    if t ∈ completedTasks s.tool_calls_made ∨ t ∈ skippedTaskKeys s.skipped_tasks
    then false else true)

/-- The scan `for result in reversed(tool_results)` of the note branch. -/
def findWeatherResult (results : List ToolResultRec) : Option ToolResultRec :=
  results.reverse.find? (fun r => r.task == "weather" || strContains r.tool_name "天气")

/-- The scan of the diagram branch: last search output truncated to 2000
characters (`some ""` is falsy at the use site, like Python's `""`). -/
def findSearchContext (results : List ToolResultRec) : Option String :=
  (results.reverse.find? (fun r => r.task == "search")).map (fun r => strTake 2000 r.output)

/-- Argument construction: either tool arguments plus the action description,
or one of the source's early returns. -/
inductive ArgOutcome where
  | execArgs (args : ToolArgs) (desc : String)
  | earlyReturn (u : Update)
deriving DecidableEq, Repr

/-- Lines 534-611 of `tool_executor_node`: build the arguments for the
pending task or return early (note-dependency skips, unknown task). -/
def executor_prepare (inp : ExecInputs) (s : AgentState) (pending : String) : ArgOutcome :=
  if pending = "weather" then
    let city := extract_city_from_query s.user_query
    .execArgs (.weatherArgs city) ("查询" ++ city ++ "天气")
  else if pending = "search" then
    let sq := extract_search_query s.user_query
    .execArgs (.searchArgs sq 6) ("搜索\x27" ++ sq ++ "\x27获取信息")
  else if pending = "diagram" then
    match findSearchContext s.tool_results with
    | some sc =>
      if sc ≠ "" then
        match inp.diagramLlm with
        | .ok reply =>
          .execArgs (generate_diagram_payload_with_llm s.user_query reply)
            "基于搜索结果使用LLM生成思维导图"
        | .error _ =>
          .execArgs (generate_diagram_payload s.user_query (some sc))
            "基于搜索结果生成思维导图"
      else .execArgs (generate_diagram_payload s.user_query none) "生成思维导图"
    | none => .execArgs (generate_diagram_payload s.user_query none) "生成思维导图"
  else if pending = "note" then
    match findWeatherResult s.tool_results with
    | none =>
      .earlyReturn
        { skipped_tasks := [⟨"note", "笔记任务依赖天气结果，但未找到"⟩],
          observations := ["笔记任务依赖天气结果，但未找到"],
          thoughts := ["天气结果未找到"] }
    | some w =>
      if ¬detect_rain_in_text w.output then
        .earlyReturn
          { skipped_tasks := [⟨"note", "天气预报无降雨，无需提醒带伞"⟩],
            observations := ["天气预报无降雨，无需提醒带伞"],
            thoughts := ["不满足条件，跳过"] }
      else
        let city :=
          match w.arguments.getCity with
          | some c => if c = "" then extract_city_from_query s.user_query else c
          | none => extract_city_from_query s.user_query
        let filename := build_note_filename city inp.clock.date8
        let content := build_note_content city w.output s.user_query inp.clock.dateMin
        .execArgs (.noteArgs filename content) ("为" ++ city ++ "创建带伞提醒")
  else
    .earlyReturn
      { skipped_tasks := [⟨pending, "无法处理任务类型：" ++ pending⟩],
        observations := ["无法处理任务类型：" ++ pending],
        thoughts := ["已生成最终答案"] }

/-- `tool_executor_node`: pick the first pending category, resolve its tool,
build arguments, run it; each invocation makes at most one tool call. -/
def tool_executor_node (tools : List ToolRecord) (inp : ExecInputs)
    (s : AgentState) : Update :=
  let tasks := infer_tool_tasks s.user_query
  if tasks.isEmpty then
    { thoughts := ["未找到需要执行的工具任务"],
      observations := [if s.user_query ≠ "" then
        "分析查询未发现需要调用工具的指令：" ++ s.user_query else "无需调用工具"],
      next_action := some "synthesize" }
  else
    match pendingTask s with
    | none =>
      { thoughts := ["天气结果未找到"],
        observations := ["所有已识别任务均已完成或跳过"],
        next_action := some "synthesize" }
    | some pending =>
      match toolForTask tools pending with
      | none =>
        { skipped_tasks := [⟨pending, "找不到任务 " ++ pending ++ " 对应的工具"⟩],
          observations := ["找不到任务 " ++ pending ++ " 对应的工具"],
          thoughts := ["找不到可用工具"] }
      | some tool =>
        match executor_prepare inp s pending with
        | .earlyReturn u => u
        | .execArgs args desc =>
          match inp.toolOutcome with
          | .error exc =>
            { observations := ["工具调用失败：" ++ exc],
              error := some exc,
              thoughts := ["工具执行失败"] }
          | .ok result =>
            let callRec : ToolCallRec :=
              ⟨tool.id, tool.name, pending, args, result, inp.clock.iso⟩
            let resRec : ToolResultRec := ⟨tool.name, pending, result, args⟩
            { tool_calls_made := [callRec],
              tool_results := [resRec],
              observations := ["工具[" ++ tool.name ++ "] 执行完成：" ++ desc ++
                (if result ≠ "" then "，结果：" ++ strTake 200 result else "")],
              thoughts := ["完成任务 " ++ pending ++ "，调用了 " ++ tool.name] }

/-! ## The fixed pipeline graph -/

/-- The six active nodes of `create_agent_graph` (the human-input node is
commented out in the source). -/
inductive NodeId where
  | planner
  | router
  | knowledge_search
  | tool_executor
  | reflector
  | synthesizer
deriving DecidableEq, Repr

/-- All external inputs consumed during one node invocation. -/
structure Inputs where
  plannerData : Except String PlanData
  routerLlm : Except String String
  retrieval : Except String (List RetrievedContext)
  exec : ExecInputs
  synthLlm : Except String String

/-- Dispatch a node function. -/
def runNode (tools : List ToolRecord) (n : NodeId) (inp : Inputs)
    (s : AgentState) : Update :=
  match n with
  | .planner => planner_node inp.plannerData s
  | .router => router_node inp.routerLlm s
  | .knowledge_search => knowledge_search_node inp.retrieval s
  | .tool_executor => tool_executor_node tools inp.exec s
  | .reflector => reflector_node s
  | .synthesizer => synthesizer_node inp.synthLlm s

/-- `route_after_routing` composed with the conditional-edge mapping of
`create_agent_graph` (the `synthesize` label goes to the reflector; a missing
or unknown action falls through to the synthesizer). -/
def route_after_routing (s : AgentState) : NodeId :=
  match s.next_action with
  | some "search_kb" => .knowledge_search
  | some "tool_executor" => .tool_executor
  | some "synthesize" => .reflector
  | _ => .synthesizer

/-- The edges of `create_agent_graph`; the synthesizer ends the run.
Conditional edges are evaluated on the state merged with the node's update. -/
def nextNode (n : NodeId) (s : AgentState) : Option NodeId :=
  match n with
  | .planner => some .router
  | .router => some (route_after_routing s)
  | .knowledge_search => some .router
  | .tool_executor => some .router
  | .reflector => some .synthesizer
  | .synthesizer => none

/-- The fresh state built by `run_agent` / `stream_agent` (which always pass
`max_iterations = 10`; the bound is kept as a parameter). -/
def initialState (q : String) (kb : Bool) (maxIter : Nat) : AgentState :=
  { user_query := q
    plan := none
    current_step := 0
    max_iterations := maxIter
    tool_calls_made := []
    tool_results := []
    skipped_tasks := []
    use_knowledge_base := kb
    retrieved_contexts := []
    thoughts := []
    observations := []
    next_action := none
    needs_human_input := false
    reflection := none
    quality_score := 0
    final_answer := none
    is_complete := false
    error := none }

/-- Reachable configurations of a run: `Reach tools n s` holds when node `n`
is about to execute on state `s` during some run over the registered tools,
for some sequence of external-call outcomes. -/
inductive Reach (tools : List ToolRecord) : NodeId → AgentState → Prop
  | init (q : String) (kb : Bool) (maxIter : Nat) :
      Reach tools .planner (initialState q kb maxIter)
  | step {n : NodeId} {s : AgentState} {n' : NodeId} (inp : Inputs)
      (h : Reach tools n s)
      (hn : nextNode n (applyUpdate s (runNode tools n inp s)) = some n') :
      Reach tools n' (applyUpdate s (runNode tools n inp s))

/-! ## Run control surface (`run_agent`) -/

/-- The caller-visible slice of `run_agent`'s result dict. -/
structure RunControlResult where
  success : Bool
  final_answer : String
  error : Option String
deriving DecidableEq, Repr

/-- The success-path result of `run_agent`. -/
def run_agent_result (finalState : AgentState) : RunControlResult :=
  { success := true
    final_answer := finalState.final_answer.getD "未能生成答案"
    error := finalState.error }

/-- The `except`-path result of `run_agent`: an unexpected exception with
text `e` aborts the run. -/
def run_agent_failure_result (e : String) : RunControlResult :=
  { success := false
    final_answer := "抱歉，处理过程中出现错误：" ++ e
    error := some e }

/-! ## Dynamic graph builder (`agent_builder.py`, `build_dynamic_graph`)

Only the structural output of the builder is embedded: which nodes are
registered, the inferred entry point, which configured edges are kept, and
which nodes get the implicit edge to the terminal sentinel.  The node
behaviour factory (`create_dynamic_node`) accepts every non-empty type
string (unknown types become a warning no-op), so a node is registered iff
its `id` and `type` are present and truthy. -/

/-- One entry of the builder's node list; `none` models a missing key,
`some ""` a falsy present value. -/
structure DynNode where
  id : Option String
  typ : Option String
deriving DecidableEq, Repr

/-- One entry of the builder's edge list (`source`/`target` are accessed
unconditionally; `condition` via `.get`). -/
structure DynEdge where
  source : String
  target : String
  condition : Option String
deriving DecidableEq, Repr

/-- Deduplicate keeping first occurrences (`dict` insertion order). -/
def dedupFirst : List String → List String
  | [] => []
  | x :: t => x :: (dedupFirst t).filter (fun y => y ≠ x)

/-- The keys of `node_map`: nodes with truthy `id` and `type`, in input
order. -/
def dynNodeIds (nodes : List DynNode) : List String :=
  dedupFirst (nodes.filterMap (fun n =>
    match n.id, n.typ with
    | some i, some t => if i ≠ "" ∧ t ≠ "" then some i else none
    | _, _ => none))

/-- The structural result of `build_dynamic_graph`.  `terminalEdges` are the
implicit unconditional edges to the `END` sentinel. -/
structure BuiltGraph where
  nodeIds : List String
  entry : Option String
  plainEdges : List (String × String)
  condEdges : List (String × String × String)
  terminalEdges : List String
deriving DecidableEq, Repr

/-- `build_dynamic_graph`: register valid nodes, infer the entry point (first
registered node that is no edge's target, else the first input node), keep
edges whose endpoints are registered (truthy conditions become conditional
edges), and wire every registered node that is no edge's source to the
terminal. -/
def build_dynamic_graph (nodes : List DynNode) (edges : List DynEdge) : BuiltGraph :=
  let nodeIds := dynNodeIds nodes
  let targets := edges.map (·.target)
  let sources := edges.map (·.source)
  let entryNodes := nodeIds.filter (fun n => n ∉ targets)
  let entry : Option String :=
    match entryNodes with
    | c :: _ => some c
    | [] =>
      match nodes with
      | n :: _ => n.id
      | [] => none
  let keptEdges := edges.filter (fun e => e.source ∈ nodeIds ∧ e.target ∈ nodeIds)
  let plainEdges := (keptEdges.filter (fun e => e.condition.getD "" = "")).map
    (fun e => (e.source, e.target))
  let condEdges := keptEdges.filterMap (fun e =>
    match e.condition with
    | some c => if c ≠ "" then some (e.source, e.target, c) else none
    | none => none)
  let terminalEdges := nodeIds.filter (fun n => n ∉ sources)
  { nodeIds := nodeIds
    entry := entry
    plainEdges := plainEdges
    condEdges := condEdges
    terminalEdges := terminalEdges }

/-! ## Structural lemmas about the merge and the nodes -/

lemma applyUpdate_current_step (s : AgentState) (u : Update) :
    (applyUpdate s u).current_step = u.current_step.getD s.current_step := rfl

lemma applyUpdate_max_iterations (s : AgentState) (u : Update) :
    (applyUpdate s u).max_iterations = s.max_iterations := rfl

lemma applyUpdate_user_query (s : AgentState) (u : Update) :
    (applyUpdate s u).user_query = s.user_query := rfl

lemma applyUpdate_tool_calls (s : AgentState) (u : Update) :
    (applyUpdate s u).tool_calls_made = s.tool_calls_made ++ u.tool_calls_made := rfl

lemma applyUpdate_skipped (s : AgentState) (u : Update) :
    (applyUpdate s u).skipped_tasks = s.skipped_tasks ++ u.skipped_tasks := rfl

/-- Every branch of the router increments `current_step` and never touches
the tool-call or skipped-task lists. -/
lemma router_node_fields (llm : Except String String) (s : AgentState) :
    (router_node llm s).current_step = some (s.current_step + 1) ∧
    (router_node llm s).tool_calls_made = [] ∧
    (router_node llm s).skipped_tasks = [] := by
  cases llm <;> (unfold router_node; dsimp only; split_ifs <;> exact ⟨rfl, rfl, rfl⟩)

/-- The hard iteration cap: at or past `max_iterations` the router returns
the full literal update forcing synthesis. -/
lemma router_node_cap (llm : Except String String) (s : AgentState)
    (h : s.max_iterations ≤ s.current_step) :
    router_node llm s =
      { next_action := some "synthesize",
        thoughts := ["已达到最大迭代次数(" ++ toString s.max_iterations ++ ")，准备生成最终答案"],
        current_step := some (s.current_step + 1) } := by
  unfold router_node
  dsimp only
  rw [if_pos h]

/-- The planner always restarts the step counter and touches no list other
than `thoughts`. -/
lemma planner_node_fields (inp : Except String PlanData) (s : AgentState) :
    (planner_node inp s).current_step = some 0 ∧
    (planner_node inp s).tool_calls_made = [] ∧
    (planner_node inp s).skipped_tasks = [] := by
  cases inp <;> exact ⟨rfl, rfl, rfl⟩

lemma knowledge_search_node_fields (r : Except String (List RetrievedContext))
    (s : AgentState) :
    (knowledge_search_node r s).current_step = none ∧
    (knowledge_search_node r s).tool_calls_made = [] ∧
    (knowledge_search_node r s).skipped_tasks = [] := by
  cases r <;> exact ⟨rfl, rfl, rfl⟩

lemma reflector_node_fields (s : AgentState) :
    (reflector_node s).current_step = none ∧
    (reflector_node s).tool_calls_made = [] ∧
    (reflector_node s).skipped_tasks = [] := ⟨rfl, rfl, rfl⟩

lemma synthesizer_node_fields (llm : Except String String) (s : AgentState) :
    (synthesizer_node llm s).current_step = none ∧
    (synthesizer_node llm s).tool_calls_made = [] ∧
    (synthesizer_node llm s).skipped_tasks = [] := by
  cases llm <;> exact ⟨rfl, rfl, rfl⟩

/-- Facts about a successful `pendingTask` selection: the task is inferred
and is neither completed nor skipped. -/
lemma pendingTask_spec (s : AgentState) (t : String) (h : pendingTask s = some t) :
    t ∈ infer_tool_tasks s.user_query ∧
    t ∉ completedTasks s.tool_calls_made ∧
    t ∉ skippedTaskKeys s.skipped_tasks := by
  unfold pendingTask at h
  refine ⟨List.mem_of_find?_eq_some h, ?_⟩
  have hp := List.find?_some h
  by_cases hc : t ∈ completedTasks s.tool_calls_made ∨ t ∈ skippedTaskKeys s.skipped_tasks
  · rw [if_pos hc] at hp
    exact absurd hp (by decide)
  · push_neg at hc
    exact hc

/-- Every inferred task is one of the four fixed categories. -/
lemma infer_tool_tasks_sub (q t : String) (h : t ∈ infer_tool_tasks q) :
    t ∈ TASK_ORDER := by
  unfold infer_tool_tasks at h
  by_cases hq : q = ""
  · rw [if_pos hq] at h
    exact absurd h (List.not_mem_nil t)
  · rw [if_neg hq] at h
    exact (List.mem_filter.mp h).1

/-- The four categories are non-empty strings. -/
lemma task_order_ne_empty (t : String) (h : t ∈ TASK_ORDER) : t ≠ "" := by
  fin_cases h <;> decide

/-- A non-empty task occurring among the recorded calls is in the completed
set. -/
lemma mem_completedTasks (calls : List ToolCallRec) (c : String) (hne : c ≠ "")
    (h : c ∈ calls.map ToolCallRec.task) : c ∈ completedTasks calls := by
  rcases List.mem_map.mp h with ⟨r, hr, rfl⟩
  exact List.mem_filterMap.mpr ⟨r, hr, by rw [if_neg hne]⟩

/-- A non-empty task occurring among the skipped entries is in the skipped
key set. -/
lemma mem_skippedTaskKeys (sk : List SkippedTask) (c : String) (hne : c ≠ "")
    (h : c ∈ sk.map SkippedTask.task) : c ∈ skippedTaskKeys sk := by
  rcases List.mem_map.mp h with ⟨r, hr, rfl⟩
  exact List.mem_filterMap.mpr ⟨r, hr, by rw [if_neg hne]⟩

/-- A string with a non-empty left part is non-empty. -/
lemma strAppend_ne_empty (a b : String) (ha : a ≠ "") : a ++ b ≠ "" := by
  intro h
  apply ha
  have hd := congrArg String.data h
  rw [String.data_append] at hd
  rcases List.append_eq_nil.mp hd with ⟨hd1, -⟩
  cases a
  cases hd1
  rfl

/-- An early return of the argument builder makes no tool call, leaves the
step counter alone, and skips exactly the pending task with a non-empty
reason. -/
lemma executor_prepare_early (inp : ExecInputs) (s : AgentState)
    (pending : String) (u : Update)
    (h : executor_prepare inp s pending = .earlyReturn u) :
    u.tool_calls_made = [] ∧ u.tool_results = [] ∧ u.current_step = none ∧
    u.skipped_tasks.map SkippedTask.task = [pending] ∧
    ∀ e ∈ u.skipped_tasks, e.reason ≠ "" := by
  unfold executor_prepare at h
  split_ifs at h with h1 h2 h3 h4
  · -- diagram: every leaf builds arguments
    split at h
    · split at h
      · split at h <;> simp at h
      · simp at h
    · simp at h
  · -- note: the two skip leaves
    split at h
    · cases h
      refine ⟨rfl, rfl, rfl, by simp [h4], ?_⟩
      intro e he
      rcases List.mem_singleton.mp he with rfl
      decide
    · split at h
      · cases h
        refine ⟨rfl, rfl, rfl, by simp [h4], ?_⟩
        intro e he
        rcases List.mem_singleton.mp he with rfl
        decide
      · simp at h
  · cases h
    refine ⟨rfl, rfl, rfl, rfl, ?_⟩
    intro e he
    rcases List.mem_singleton.mp he with rfl
    exact strAppend_ne_empty _ _ (by decide)

/-- Shape of one executor invocation: the step counter is untouched and
either nothing is recorded, or exactly the pending task is recorded — as the
single new tool call or as the single new skipped entry. -/
lemma executor_shape (tools : List ToolRecord) (inp : ExecInputs) (s : AgentState) :
    (tool_executor_node tools inp s).current_step = none ∧
    (((tool_executor_node tools inp s).tool_calls_made = [] ∧
      (tool_executor_node tools inp s).skipped_tasks = []) ∨
     (∃ t, pendingTask s = some t ∧
        (((tool_executor_node tools inp s).tool_calls_made.map ToolCallRec.task = [t] ∧
          (tool_executor_node tools inp s).skipped_tasks = []) ∨
         ((tool_executor_node tools inp s).tool_calls_made = [] ∧
          (tool_executor_node tools inp s).skipped_tasks.map SkippedTask.task = [t])))) := by
  unfold tool_executor_node
  dsimp only
  split
  · exact ⟨rfl, .inl ⟨rfl, rfl⟩⟩
  · split
    · exact ⟨rfl, .inl ⟨rfl, rfl⟩⟩
    · rename_i pending hpend
      split
      · exact ⟨rfl, .inr ⟨pending, hpend, .inr ⟨rfl, by simp⟩⟩⟩
      · rename_i tool htool
        split
        · rename_i u hprep
          obtain ⟨hc, hr, hcs, hsk, -⟩ := executor_prepare_early inp s pending u hprep
          exact ⟨hcs, .inr ⟨pending, hpend, .inr ⟨hc, hsk⟩⟩⟩
        · rename_i args desc hprep
          split
          · exact ⟨rfl, .inl ⟨rfl, rfl⟩⟩
          · exact ⟨rfl, .inr ⟨pending, hpend, .inl ⟨by simp, rfl⟩⟩⟩

/-- When the argument builder produces executable arguments for the note
task, a weather result with a rain keyword is present. -/
lemma executor_prepare_note_exec (inp : ExecInputs) (s : AgentState)
    (args : ToolArgs) (desc : String)
    (h : executor_prepare inp s "note" = .execArgs args desc) :
    ∃ w, findWeatherResult s.tool_results = some w ∧
      detect_rain_in_text w.output = true := by
  unfold executor_prepare at h
  rw [if_neg (by decide), if_neg (by decide), if_neg (by decide), if_pos rfl] at h
  split at h
  · simp at h
  · rename_i w hw
    split at h
    · simp at h
    · rename_i hrain
      exact ⟨w, hw, by simpa using hrain⟩

/-- A recorded tool call was the pending task, and a recorded note call
presupposes a rain-bearing weather result. -/
lemma executor_call_spec (tools : List ToolRecord) (inp : ExecInputs)
    (s : AgentState) (rec : ToolCallRec)
    (h : rec ∈ (tool_executor_node tools inp s).tool_calls_made) :
    pendingTask s = some rec.task ∧
    (rec.task = "note" → ∃ w, findWeatherResult s.tool_results = some w ∧
      detect_rain_in_text w.output = true) := by
  unfold tool_executor_node at h
  dsimp only at h
  split at h
  · exact absurd h (List.not_mem_nil rec)
  · split at h
    · exact absurd h (List.not_mem_nil rec)
    · rename_i pending hpend
      split at h
      · exact absurd h (List.not_mem_nil rec)
      · rename_i tool htool
        split at h
        · rename_i u hprep
          obtain ⟨hc, _, _, _, _⟩ := executor_prepare_early inp s pending u hprep
          rw [hc] at h
          exact absurd h (List.not_mem_nil rec)
        · rename_i args desc hprep
          split at h
          · exact absurd h (List.not_mem_nil rec)
          · rename_i result
            have hrec : rec.task = pending := by
              rcases List.mem_singleton.mp h with rfl
              rfl
            refine ⟨hrec ▸ hpend, fun hn => ?_⟩
            rw [hrec] at hn
            subst hn
            exact executor_prepare_note_exec inp s args desc hprep

/-- The executor never fires a task that is already recorded as called or as
skipped. -/
lemma executor_call_fresh (tools : List ToolRecord) (inp : ExecInputs)
    (s : AgentState) (rec : ToolCallRec)
    (h : rec ∈ (tool_executor_node tools inp s).tool_calls_made) :
    rec.task ∈ TASK_ORDER ∧
    rec.task ∉ s.tool_calls_made.map ToolCallRec.task ∧
    rec.task ∉ s.skipped_tasks.map SkippedTask.task := by
  obtain ⟨hpend, -⟩ := executor_call_spec tools inp s rec h
  obtain ⟨hinf, hnc, hns⟩ := pendingTask_spec s rec.task hpend
  have horder := infer_tool_tasks_sub s.user_query rec.task hinf
  have hne := task_order_ne_empty rec.task horder
  exact ⟨horder,
    fun hmem => hnc (mem_completedTasks s.tool_calls_made rec.task hne hmem),
    fun hmem => hns (mem_skippedTaskKeys s.skipped_tasks rec.task hne hmem)⟩

lemma applyUpdate_next_action (s : AgentState) (u : Update) :
    (applyUpdate s u).next_action =
      match u.next_action with
      | some a => some a
      | none => s.next_action := rfl

/-- The step-counter invariant attached to each node entry: the planner only
runs on the fresh state, and any node that can reach the router again holds
`current_step ≤ max_iterations`. -/
def StepInv : NodeId → AgentState → Prop
  | .planner, s => s.current_step = 0
  | .router, s => s.current_step ≤ s.max_iterations
  | .knowledge_search, s => s.current_step ≤ s.max_iterations
  | .tool_executor, s => s.current_step ≤ s.max_iterations
  | .reflector, _ => True
  | .synthesizer, _ => True

lemma reach_stepInv {tools : List ToolRecord} {n : NodeId} {s : AgentState}
    (h : Reach tools n s) : StepInv n s := by
  induction h with
  | init q kb m => rfl
  | step inp h hn ih =>
    rename_i n s n'
    cases n with
    | planner =>
      cases hn
      have h0 : s.current_step = 0 := ih
      show (applyUpdate s (runNode tools .planner inp s)).current_step ≤ _
      rw [applyUpdate_current_step]
      simp [runNode, (planner_node_fields inp.plannerData s).1]
    | router =>
      have hstep : (applyUpdate s (runNode tools .router inp s)).current_step =
          s.current_step + 1 := by
        rw [applyUpdate_current_step]
        simp [runNode, (router_node_fields inp.routerLlm s).1]
      have hn' : n' = route_after_routing (applyUpdate s (runNode tools .router inp s)) := by
        have := hn
        unfold nextNode at this
        exact (Option.some.inj this).symm
      cases n' with
      | knowledge_search =>
        show (applyUpdate s (runNode tools .router inp s)).current_step ≤ _
        rw [hstep, applyUpdate_max_iterations]
        by_contra hgt
        have hge : s.max_iterations ≤ s.current_step := by omega
        have hcap := router_node_cap inp.routerLlm s hge
        rw [route_after_routing, applyUpdate_next_action, runNode, hcap] at hn'
        simp at hn'
      | tool_executor =>
        show (applyUpdate s (runNode tools .router inp s)).current_step ≤ _
        rw [hstep, applyUpdate_max_iterations]
        by_contra hgt
        have hge : s.max_iterations ≤ s.current_step := by omega
        have hcap := router_node_cap inp.routerLlm s hge
        rw [route_after_routing, applyUpdate_next_action, runNode, hcap] at hn'
        simp at hn'
      | planner =>
        rw [route_after_routing] at hn'
        split at hn' <;> simp at hn'
      | router =>
        rw [route_after_routing] at hn'
        split at hn' <;> simp at hn'
      | reflector => trivial
      | synthesizer => trivial
    | knowledge_search =>
      cases hn
      show (applyUpdate s (runNode tools .knowledge_search inp s)).current_step ≤ _
      rw [applyUpdate_current_step, applyUpdate_max_iterations]
      simpa [runNode, (knowledge_search_node_fields inp.retrieval s).1] using ih
    | tool_executor =>
      cases hn
      show (applyUpdate s (runNode tools .tool_executor inp s)).current_step ≤ _
      rw [applyUpdate_current_step, applyUpdate_max_iterations]
      simpa [runNode, (executor_shape tools inp.exec s).1] using ih
    | reflector =>
      cases hn
      trivial
    | synthesizer => cases hn

/-- Per-run invariant on the recorded tool calls: no category twice, and
only the four fixed categories. -/
def CallsInv (s : AgentState) : Prop :=
  (s.tool_calls_made.map ToolCallRec.task).Nodup ∧
  ∀ c ∈ s.tool_calls_made.map ToolCallRec.task, c ∈ TASK_ORDER

lemma reach_callsInv {tools : List ToolRecord} {n : NodeId} {s : AgentState}
    (h : Reach tools n s) : CallsInv s := by
  induction h with
  | init q kb m => exact ⟨List.nodup_nil, by simp [initialState]⟩
  | step inp h hn ih =>
    rename_i n s n'
    have hkeep : ∀ u : Update, u.tool_calls_made = [] →
        CallsInv (applyUpdate s u) := by
      intro u hu
      constructor
      · rw [applyUpdate_tool_calls, hu, List.append_nil]
        exact ih.1
      · rw [applyUpdate_tool_calls, hu, List.append_nil]
        exact ih.2
    cases n with
    | planner => exact hkeep _ (planner_node_fields inp.plannerData s).2.1
    | router => exact hkeep _ (router_node_fields inp.routerLlm s).2.1
    | knowledge_search => exact hkeep _ (knowledge_search_node_fields inp.retrieval s).2.1
    | reflector => exact hkeep _ (reflector_node_fields s).2.1
    | synthesizer => exact hkeep _ (synthesizer_node_fields inp.synthLlm s).2.1
    | tool_executor =>
      rcases (executor_shape tools inp.exec s).2 with ⟨hc, _⟩ | ⟨t, hpend, hcase⟩
      · exact hkeep _ hc
      · rcases hcase with ⟨hmap, _⟩ | ⟨hc, _⟩
        · -- one new call for task t
          constructor
          · rw [applyUpdate_tool_calls, List.map_append]
            simp only [runNode]
            rw [hmap]
            rw [List.nodup_append]
            refine ⟨ih.1, List.nodup_singleton t, ?_⟩
            intro c hcmem hcmem'
            rcases List.mem_singleton.mp hcmem' with rfl
            obtain ⟨hinf, hnc, -⟩ := pendingTask_spec s c hpend
            have hne := task_order_ne_empty c (infer_tool_tasks_sub s.user_query c hinf)
            exact hnc (mem_completedTasks s.tool_calls_made c hne hcmem)
          · rw [applyUpdate_tool_calls, List.map_append]
            simp only [runNode]
            rw [hmap]
            intro c hcmem
            rcases List.mem_append.mp hcmem with hcm | hcm
            · exact ih.2 c hcm
            · rcases List.mem_singleton.mp hcm with rfl
              obtain ⟨hinf, -, -⟩ := pendingTask_spec s c hpend
              exact infer_tool_tasks_sub s.user_query c hinf
        · exact hkeep _ hc

/-! ## Claim theorems -/

/-- C1: whenever the router is invoked with `currentStep ≥ maxIterations` it
returns `nextAction = synthesize` — before and regardless of the
knowledge-base flag, pending tool tasks or any model reply — and increments
`currentStep` by 1; in particular with `maxIterations = 3` a router call at
`currentStep = 3` (the 4th call after three increments from 0) returns
`synthesize` unconditionally. -/
theorem router_hard_cap_forces_synthesize :
    (∀ (s : AgentState) (llm : Except String String),
        s.max_iterations ≤ s.current_step →
        (router_node llm s).next_action = some "synthesize" ∧
        (router_node llm s).current_step = some (s.current_step + 1)) ∧
    (∀ (s : AgentState) (llm : Except String String),
        s.max_iterations = 3 → s.current_step = 3 →
        (router_node llm s).next_action = some "synthesize") := by
  constructor
  · intro s llm h
    rw [router_node_cap llm s h]
    exact ⟨rfl, rfl⟩
  · intro s llm h3 hs
    rw [router_node_cap llm s (by omega)]

/-- Concrete instance of C1: a state at the cap with a pending weather task
and a model reply voting for tools still yields `synthesize`. -/
theorem router_hard_cap_forces_synthesize_witness :
    ({ initialState "查一下北京天气" false 3 with current_step := 3 } : AgentState).max_iterations ≤
      ({ initialState "查一下北京天气" false 3 with current_step := 3 } : AgentState).current_step ∧
    (router_node (.ok "B")
        { initialState "查一下北京天气" false 3 with current_step := 3 }).next_action =
      some "synthesize" ∧
    (router_node (.ok "B")
        { initialState "查一下北京天气" false 3 with current_step := 3 }).current_step = some 4 := by
  refine ⟨by decide, ?_⟩
  obtain ⟨h1, h2⟩ := router_hard_cap_forces_synthesize.1
    { initialState "查一下北京天气" false 3 with current_step := 3 } (.ok "B") (by decide)
  exact ⟨h1, h2⟩

/-- C2: across a run from a fresh initial state, `currentStep` never
decreases at any node transition, and every router exit satisfies
`currentStep ≤ maxIterations + 1` (with `maxIterations` itself unchanged). -/
theorem run_currentStep_monotone_bounded (tools : List ToolRecord) (n : NodeId)
    (s : AgentState) (h : Reach tools n s) :
    (∀ inp : Inputs,
        s.current_step ≤ (applyUpdate s (runNode tools n inp s)).current_step) ∧
    (n = .router → ∀ inp : Inputs,
        (applyUpdate s (runNode tools n inp s)).current_step ≤ s.max_iterations + 1 ∧
        (applyUpdate s (runNode tools n inp s)).max_iterations = s.max_iterations) := by
  have hinv := reach_stepInv h
  constructor
  · intro inp
    cases n with
    | planner =>
      have h0 : s.current_step = 0 := hinv
      rw [applyUpdate_current_step]
      simp [runNode, (planner_node_fields inp.plannerData s).1, h0]
    | router =>
      rw [applyUpdate_current_step]
      simp only [runNode, (router_node_fields inp.routerLlm s).1, Option.getD_some]
      omega
    | knowledge_search =>
      rw [applyUpdate_current_step]
      simp [runNode, (knowledge_search_node_fields inp.retrieval s).1]
    | tool_executor =>
      rw [applyUpdate_current_step]
      simp [runNode, (executor_shape tools inp.exec s).1]
    | reflector =>
      rw [applyUpdate_current_step]
      simp [runNode, (reflector_node_fields s).1]
    | synthesizer =>
      rw [applyUpdate_current_step]
      simp [runNode, (synthesizer_node_fields inp.synthLlm s).1]
  · rintro rfl inp
    have hle : s.current_step ≤ s.max_iterations := hinv
    refine ⟨?_, rfl⟩
    rw [applyUpdate_current_step]
    simp only [runNode, (router_node_fields inp.routerLlm s).1, Option.getD_some]
    omega

/-- A full bundle of failing external calls, for concrete instantiations. -/
def failingInputs : Inputs :=
  { plannerData := .error "llm down"
    routerLlm := .error "llm down"
    retrieval := .error "retrieval down"
    exec := ⟨.error "tool down", .error "llm down", ⟨"20260101", "2026-01-01 00:00", "2026-01-01T00:00:00"⟩⟩
    synthLlm := .error "llm down" }

/-- Concrete instance of C2 at the run's first node. -/
theorem run_currentStep_monotone_bounded_witness :
    (initialState "你好" false 10).current_step ≤
      (applyUpdate (initialState "你好" false 10)
        (runNode [] .planner failingInputs (initialState "你好" false 10))).current_step :=
  (run_currentStep_monotone_bounded [] .planner _ (Reach.init "你好" false 10)).1 failingInputs

/-- A state with non-empty `retrieved_contexts` but an empty observation
log, as C3 quantifies over: the step-0 heuristic consults only the
observations. -/
def contextButNoObsState : AgentState :=
  { initialState "什么是量子计算" true 10 with
    retrieved_contexts := [⟨"doc-1", "量子计算.pdf", "量子计算基础内容"⟩] }

/-- C3 counterexample: at `currentStep = 0` with `useKnowledgeBase = true`,
non-empty `retrievedContexts` and no knowledge-base observation, the router
returns `search_kb` (for any model reply — the step-0 heuristic answers
before the model is consulted), refuting the claim over all states. -/
theorem router_search_kb_despite_contexts_cex :
    contextButNoObsState.retrieved_contexts ≠ [] ∧
    (router_node (.ok "C") contextButNoObsState).next_action = some "search_kb" ∧
    (router_node (.error "llm down") contextButNoObsState).next_action = some "search_kb" :=
  ⟨by decide, by decide, by decide⟩

/-- C3 amended: if `retrievedContexts` is non-empty and the state is not a
step-0 state that looks unsearched (i.e. `currentStep ≥ 1`, or the knowledge
base is off, or some observation mentions the knowledge base), the router
never returns `search_kb`, on any of its paths and for any model outcome. -/
theorem router_never_search_kb_after_contexts (s : AgentState)
    (llm : Except String String)
    (hctx : s.retrieved_contexts ≠ [])
    (hguard : s.current_step ≠ 0 ∨ s.use_knowledge_base = false ∨
      s.observations.any (fun o => strContains o "知识库") = true) :
    (router_node llm s).next_action ≠ some "search_kb" := by
  have hkb : ¬s.retrieved_contexts.isEmpty = true ∨
      s.observations.any
        (fun o => strContains o "知识库" || strContains o "检索到") = true :=
    Or.inl (by simpa [List.isEmpty_iff] using hctx)
  cases llm with
  | ok reply =>
    unfold router_node
    dsimp only
    split_ifs with h1 h2 h3 <;> try simp
    · -- step-0 search branch: excluded by the guard hypothesis
      rcases hguard with hg | hg | hg
      · exact hg h2.1
      · rw [hg] at h2
        exact absurd h2.2.1 (by decide)
      · exact h2.2.2 hg
    · -- model decision A with the anti-loop override declined: impossible,
      -- the knowledge base is known searched
      rename_i hA hno
      exact hno ⟨rfl, hkb⟩
  | error e =>
    unfold router_node
    dsimp only
    split_ifs with h1 h2 h3 <;> try simp
    · rcases hguard with hg | hg | hg
      · exact hg h2.1
      · rw [hg] at h2
        exact absurd h2.2.1 (by decide)
      · exact h2.2.2 hg
    · -- fallback search branch requires an unsearched knowledge base
      rename_i hcond
      exact hcond.2.1 hkb

/-- Concrete instance of the amended C3: after a real retrieval (step 1, a
knowledge-base observation present), even a model reply of `A` cannot yield
`search_kb`. -/
theorem router_never_search_kb_after_contexts_witness :
    (router_node (.ok "A")
      { initialState "什么是量子计算" true 10 with
        current_step := 1
        retrieved_contexts := [⟨"doc-1", "量子计算.pdf", "量子计算基础内容"⟩]
        observations := ["从知识库检索到 1 个相关片段"] }).next_action ≠ some "search_kb" :=
  router_never_search_kb_after_contexts _ (.ok "A") (by decide) (Or.inl (by decide))

/-- C4: in every reachable run state, `toolCallsMade` has at most one entry
per task category, at most 5 entries in total, and the next node invocation
only ever records a category that is in neither `toolCallsMade` nor
`skippedTasks`. -/
theorem tool_calls_unique_bounded (tools : List ToolRecord) (n : NodeId)
    (s : AgentState) (h : Reach tools n s) :
    (∀ c : String, (s.tool_calls_made.map ToolCallRec.task).count c ≤ 1) ∧
    s.tool_calls_made.length ≤ 5 ∧
    (∀ (inp : Inputs) (rec : ToolCallRec),
        rec ∈ (runNode tools n inp s).tool_calls_made →
        rec.task ∉ s.tool_calls_made.map ToolCallRec.task ∧
        rec.task ∉ s.skipped_tasks.map SkippedTask.task) := by
  obtain ⟨hnodup, hsub⟩ := reach_callsInv h
  refine ⟨fun c => List.nodup_iff_count_le_one.mp hnodup c, ?_, ?_⟩
  · have hlen : (s.tool_calls_made.map ToolCallRec.task).length ≤ TASK_ORDER.length :=
      (List.subperm_of_subset hnodup fun c hc => hsub c hc).length_le
    rw [List.length_map] at hlen
    have h4 : TASK_ORDER.length = 4 := rfl
    omega
  · intro inp rec hrec
    cases n with
    | tool_executor =>
      have hfresh := executor_call_fresh tools inp.exec s rec (by simpa [runNode] using hrec)
      exact ⟨hfresh.2.1, hfresh.2.2⟩
    | planner =>
      rw [runNode, (planner_node_fields inp.plannerData s).2.1] at hrec
      exact absurd hrec (List.not_mem_nil rec)
    | router =>
      rw [runNode, (router_node_fields inp.routerLlm s).2.1] at hrec
      exact absurd hrec (List.not_mem_nil rec)
    | knowledge_search =>
      rw [runNode, (knowledge_search_node_fields inp.retrieval s).2.1] at hrec
      exact absurd hrec (List.not_mem_nil rec)
    | reflector =>
      rw [runNode, (reflector_node_fields s).2.1] at hrec
      exact absurd hrec (List.not_mem_nil rec)
    | synthesizer =>
      rw [runNode, (synthesizer_node_fields inp.synthLlm s).2.1] at hrec
      exact absurd hrec (List.not_mem_nil rec)

/-- Concrete instance of C4 at the run start. -/
theorem tool_calls_unique_bounded_witness :
    (((initialState "北京天气" false 10).tool_calls_made.map ToolCallRec.task).count
        "weather" ≤ 1) ∧
    (initialState "北京天气" false 10).tool_calls_made.length ≤ 5 :=
  ⟨(tool_calls_unique_bounded [] .planner _ (Reach.init "北京天气" false 10)).1 "weather",
   (tool_calls_unique_bounded [] .planner _ (Reach.init "北京天气" false 10)).2.1⟩

/-- C5: the synthesizer is total over the typed state — for every state and
every model outcome it returns `isComplete = true` and a non-null
`finalAnswer`, and on model failure the answer is exactly the deterministic
fallback assembled from the existing sections. -/
theorem synthesizer_total_complete :
    (∀ (s : AgentState) (llm : Except String String),
        (synthesizer_node llm s).is_complete = some true ∧
        (synthesizer_node llm s).final_answer ≠ none) ∧
    (∀ (s : AgentState) (e : String),
        (synthesizer_node (.error e) s).final_answer =
          some (synth_fallback_answer s e)) := by
  refine ⟨fun s llm => ?_, fun s e => rfl⟩
  cases llm with
  | ok reply => exact ⟨rfl, by simp [synthesizer_node]⟩
  | error e => exact ⟨rfl, by simp [synthesizer_node]⟩

/-- Entry-point inference: if the filtered candidate list has a head, it is
the entry point. -/
lemma build_dynamic_graph_entry (nodes : List DynNode) (edges : List DynEdge)
    (i : String)
    (h : ((dynNodeIds nodes).filter (fun x => x ∉ edges.map (·.target))).head? = some i) :
    (build_dynamic_graph nodes edges).entry = some i := by
  unfold build_dynamic_graph
  dsimp only
  cases hE : (dynNodeIds nodes).filter (fun x => x ∉ edges.map (·.target)) with
  | nil =>
    rw [hE] at h
    exact absurd h (by simp)
  | cons c rest =>
    rw [hE] at h
    exact h

/-- Terminal wiring: the nodes receiving the implicit edge to `END` are
exactly the registered nodes that are no edge's source. -/
lemma build_dynamic_graph_terminal (nodes : List DynNode) (edges : List DynEdge)
    (i : String) :
    i ∈ (build_dynamic_graph nodes edges).terminalEdges ↔
      i ∈ dynNodeIds nodes ∧ ∀ e ∈ edges, e.source ≠ i := by
  unfold build_dynamic_graph
  dsimp only
  simp only [List.mem_filter, List.mem_map, decide_not, Bool.not_eq_eq_eq_not,
    Bool.not_true, decide_eq_false_iff_not]
  constructor
  · rintro ⟨hmem, hns⟩
    exact ⟨hmem, fun e he heq => hns ⟨e, he, heq⟩⟩
  · rintro ⟨hmem, hns⟩
    exact ⟨hmem, fun ⟨e, he, heq⟩ => hns e he heq⟩

/-- C6: the dynamic builder's entry point is the first registered node id
never appearing as an edge target (the first registered node when there are
no edges), every registered node that appears as no edge's source gets the
implicit terminal edge, and the two-node `a → b` example produces entry
`"a"`, edge `a → b` and the implicit edge `b → terminal`.  (The example's
nodes carry a node type, which the builder requires to register a node.) -/
theorem dynamic_builder_entry_terminal :
    (∀ (nodes : List DynNode) (edges : List DynEdge) (i : String),
        ((dynNodeIds nodes).filter (fun x => x ∉ edges.map (·.target))).head? = some i →
        (build_dynamic_graph nodes edges).entry = some i) ∧
    (∀ (nodes : List DynNode) (i : String),
        (dynNodeIds nodes).head? = some i →
        (build_dynamic_graph nodes []).entry = some i) ∧
    (∀ (nodes : List DynNode) (edges : List DynEdge) (i : String),
        i ∈ (build_dynamic_graph nodes edges).terminalEdges ↔
          i ∈ dynNodeIds nodes ∧ ∀ e ∈ edges, e.source ≠ i) ∧
    (build_dynamic_graph
        [⟨some "a", some "llm_call"⟩, ⟨some "b", some "llm_call"⟩]
        [⟨"a", "b", none⟩] =
      { nodeIds := ["a", "b"], entry := some "a", plainEdges := [("a", "b")],
        condEdges := [], terminalEdges := ["b"] }) := by
  refine ⟨build_dynamic_graph_entry, ?_, build_dynamic_graph_terminal, by decide⟩
  intro nodes i h
  refine build_dynamic_graph_entry nodes [] i ?_
  simpa using h

/-- Concrete instance of C6's entry inference on the two-node example. -/
theorem dynamic_builder_entry_terminal_witness :
    ((dynNodeIds [⟨some "a", some "llm_call"⟩, ⟨some "b", some "llm_call"⟩]).filter
        (fun x => x ∉ ([⟨"a", "b", none⟩] : List DynEdge).map (·.target))).head? =
      some "a" ∧
    (build_dynamic_graph
        [⟨some "a", some "llm_call"⟩, ⟨some "b", some "llm_call"⟩]
        [⟨"a", "b", none⟩]).entry = some "a" :=
  ⟨by decide, dynamic_builder_entry_terminal.1 _ _ "a" (by decide)⟩

/-! ### C7 scenario: a city, "明天" and "提醒我带伞" with only a weather tool -/

/-- The registered weather tool of the scenario. -/
def scenarioWeatherTool : ToolRecord :=
  ⟨"tool-weather", "天气查询", "查询城市天气", "builtin", some "get_weather", true⟩

/-- Scenario external inputs: the weather tool succeeds with a rain-free
forecast. -/
def scenarioInputs : ExecInputs :=
  ⟨.ok "明天晴，气温25度", .ok "", ⟨"20260101", "2026-01-01 08:00", "2026-01-01T08:00:00"⟩⟩

/-- Scenario run state before any tool call. -/
def scenarioState0 : AgentState := initialState "北京明天提醒我带伞" false 10

/-- Scenario run state after the weather call has been merged. -/
def scenarioState1 : AgentState :=
  applyUpdate scenarioState0
    (tool_executor_node [scenarioWeatherTool] scenarioInputs scenarioState0)

/-- C7: a `note` tool call is only ever recorded when a prior weather result
with a rain keyword exists; if the weather result is missing or rain-free,
the pending `note` task is skipped with a reason and no tool call is made;
and in the city + "明天" + "提醒我带伞" scenario with only a weather tool
registered, task inference yields `["weather", "note"]` and `toolCallsMade`
gains exactly the one `weather` entry, with `note` skipped. -/
theorem note_requires_weather_scenario :
    (∀ (tools : List ToolRecord) (inp : ExecInputs) (s : AgentState)
        (rec : ToolCallRec),
        rec ∈ (tool_executor_node tools inp s).tool_calls_made →
        rec.task = "note" →
        ∃ w, findWeatherResult s.tool_results = some w ∧
          detect_rain_in_text w.output = true) ∧
    (∀ (tools : List ToolRecord) (inp : ExecInputs) (s : AgentState),
        pendingTask s = some "note" →
        (∀ w, findWeatherResult s.tool_results = some w →
          detect_rain_in_text w.output = false) →
        (tool_executor_node tools inp s).tool_calls_made = [] ∧
        ∃ e ∈ (tool_executor_node tools inp s).skipped_tasks,
          e.task = "note" ∧ e.reason ≠ "") ∧
    (infer_tool_tasks "北京明天提醒我带伞" = ["weather", "note"] ∧
     (tool_executor_node [scenarioWeatherTool] scenarioInputs
         scenarioState0).tool_calls_made.map ToolCallRec.task = ["weather"] ∧
     scenarioState1.tool_calls_made.map ToolCallRec.task = ["weather"] ∧
     (tool_executor_node [scenarioWeatherTool] scenarioInputs
         scenarioState1).tool_calls_made = [] ∧
     (tool_executor_node [scenarioWeatherTool] scenarioInputs
         scenarioState1).skipped_tasks.map SkippedTask.task = ["note"]) := by
  refine ⟨?_, ?_, by decide, by decide, by decide, by decide, by decide⟩
  · intro tools inp s rec hrec hnote
    exact (executor_call_spec tools inp s rec hrec).2 hnote
  · intro tools inp s hpend hnorain
    have hmem := (pendingTask_spec s "note" hpend).1
    have hni : ¬((infer_tool_tasks s.user_query).isEmpty = true) := by
      simpa [List.isEmpty_iff] using List.ne_nil_of_mem hmem
    unfold tool_executor_node
    dsimp only
    split
    · rename_i hempty
      exact absurd hempty hni
    · split
      · rename_i hnone
        rw [hpend] at hnone
        cases hnone
      · rename_i pending hpends
        rw [hpend] at hpends
        have hpd : pending = "note" := (Option.some.inj hpends).symm
        subst hpd
        split
        · refine ⟨rfl, ⟨"note", "找不到任务 " ++ "note" ++ " 对应的工具"⟩,
            List.mem_singleton_self _, rfl, by decide⟩
        · rename_i tool htool
          split
          · rename_i u hprep
            obtain ⟨hc, -, -, hsk, hreason⟩ := executor_prepare_early inp s "note" u hprep
            refine ⟨hc, ?_⟩
            have hn : "note" ∈ u.skipped_tasks.map SkippedTask.task := by
              rw [hsk]
              exact List.mem_singleton_self _
            rcases List.mem_map.mp hn with ⟨e, he, hte⟩
            exact ⟨e, he, hte, hreason e he⟩
          · rename_i args desc hprep
            obtain ⟨w, hw, hrain⟩ := executor_prepare_note_exec inp s args desc hprep
            rw [hnorain w hw] at hrain
            exact absurd hrain (by decide)

/-- Concrete instance of C7's skip clause: after the rain-free weather call
of the scenario, the pending `note` task is skipped without a tool call. -/
theorem note_requires_weather_scenario_witness :
    (tool_executor_node [scenarioWeatherTool] scenarioInputs
        scenarioState1).tool_calls_made = [] ∧
    ∃ e ∈ (tool_executor_node [scenarioWeatherTool] scenarioInputs
        scenarioState1).skipped_tasks, e.task = "note" ∧ e.reason ≠ "" :=
  note_requires_weather_scenario.2.1 [scenarioWeatherTool] scenarioInputs scenarioState1
    (by decide)
    (fun w hw => by
      have h0 : findWeatherResult scenarioState1.tool_results =
          some ⟨"天气查询", "weather", "明天晴，气温25度", .weatherArgs "北京"⟩ := by decide
      rw [h0] at hw
      cases hw
      decide)

/-- C8 counterexample: on the query `" 帮我搜索 "` the extraction pipeline
empties out, and the fallback returns the whitespace-stripped query
`"帮我搜索"` — not the raw query, which the claim as stated requires. -/
theorem search_query_raw_fallback_cex :
    extract_search_core " 帮我搜索 " = "" ∧
    extract_search_query " 帮我搜索 " = "帮我搜索" ∧
    extract_search_query " 帮我搜索 " ≠ " 帮我搜索 " :=
  ⟨by decide, by decide, by decide⟩

/-- C8 amended: search-argument extraction strips one lead-in phrase,
truncates at the first listed suffix phrase found at a positive index, trims
the punctuation set, and falls back to the whitespace-stripped (not raw)
query when the result is empty; the scenario query
`"帮我搜索DeepSeek的最新进展"` yields `"DeepSeek的最新进展"`. -/
theorem search_query_extraction_amended :
    (∀ q : String, q ≠ "" →
        extract_search_query q =
          (if extract_search_core q = "" then pyStrip q else extract_search_core q)) ∧
    (∀ q : String, q ≠ "" → extract_search_core q = "" →
        extract_search_query q = pyStrip q) ∧
    extract_search_query "帮我搜索DeepSeek的最新进展" = "DeepSeek的最新进展" ∧
    extract_search_core "帮我搜索DeepSeek的最新进展" = "DeepSeek的最新进展" := by
  refine ⟨fun q hq => ?_, fun q hq hc => ?_, by decide, by decide⟩
  · unfold extract_search_query
    rw [if_neg hq]
  · unfold extract_search_query
    rw [if_neg hq, if_pos hc]

/-- Concrete instance of the amended C8 fallback clause. -/
theorem search_query_extraction_amended_witness :
    extract_search_query " 帮我搜索 " = pyStrip " 帮我搜索 " :=
  search_query_extraction_amended.2.1 " 帮我搜索 " (by decide) (by decide)

/-- C9 counterexample: the aborted run's `finalAnswer` embeds the raw
exception text verbatim, so it is not free of raw internal details. -/
theorem run_failure_answer_contains_raw_error_cex :
    (run_agent_failure_result "ZeroDivisionError: division by zero").success = false ∧
    strContains
      (run_agent_failure_result "ZeroDivisionError: division by zero").final_answer
      "ZeroDivisionError: division by zero" = true :=
  ⟨rfl, by decide⟩

/-- C9 amended: a run aborted by an unexpected exception reports
`success = false`, attaches the error message, and returns as `finalAnswer`
an apology that is the fixed apology prefix followed by the raw exception
text (so the exception message is embedded, not hidden). -/
theorem run_failure_apology_with_error (e : String) :
    (run_agent_failure_result e).success = false ∧
    (run_agent_failure_result e).error = some e ∧
    (run_agent_failure_result e).final_answer = "抱歉，处理过程中出现错误：" ++ e ∧
    pyStartsWith (run_agent_failure_result e).final_answer "抱歉" = true :=
  ⟨rfl, rfl, rfl, rfl⟩

/-- C10: when the selected tool's execution raises, the executor returns
only the failure observation, the error text and a thought — the failing
category joins neither `toolCallsMade` nor `skippedTasks`, so the very same
task is still the pending one afterwards and can be retried. -/
theorem tool_failure_keeps_task_pending (tools : List ToolRecord)
    (inp : ExecInputs) (s : AgentState) (t : String) (tool : ToolRecord)
    (e : String)
    (hpend : pendingTask s = some t)
    (htool : toolForTask tools t = some tool)
    (hnote : t = "note" → ∃ w, findWeatherResult s.tool_results = some w ∧
      detect_rain_in_text w.output = true)
    (herr : inp.toolOutcome = .error e) :
    (tool_executor_node tools inp s).tool_calls_made = [] ∧
    (tool_executor_node tools inp s).skipped_tasks = [] ∧
    (tool_executor_node tools inp s).tool_results = [] ∧
    (tool_executor_node tools inp s).error = some e ∧
    (tool_executor_node tools inp s).observations = ["工具调用失败：" ++ e] ∧
    (tool_executor_node tools inp s).thoughts = ["工具执行失败"] ∧
    pendingTask (applyUpdate s (tool_executor_node tools inp s)) = some t := by
  have hmem := (pendingTask_spec s t hpend).1
  have hni : ¬((infer_tool_tasks s.user_query).isEmpty = true) := by
    simpa [List.isEmpty_iff] using List.ne_nil_of_mem hmem
  have hfields :
      (tool_executor_node tools inp s).tool_calls_made = [] ∧
      (tool_executor_node tools inp s).skipped_tasks = [] ∧
      (tool_executor_node tools inp s).tool_results = [] ∧
      (tool_executor_node tools inp s).error = some e ∧
      (tool_executor_node tools inp s).observations = ["工具调用失败：" ++ e] ∧
      (tool_executor_node tools inp s).thoughts = ["工具执行失败"] := by
    unfold tool_executor_node
    dsimp only
    split
    · rename_i hempty
      exact absurd hempty hni
    · split
      · rename_i hnone
        rw [hpend] at hnone
        cases hnone
      · rename_i pending hpends
        rw [hpend] at hpends
        have hpd : pending = t := (Option.some.inj hpends).symm
        subst hpd
        split
        · rename_i hnotool
          rw [htool] at hnotool
          cases hnotool
        · split
          · rename_i u hprep
            exfalso
            have horder := infer_tool_tasks_sub s.user_query pending hmem
            fin_cases horder
            · exact absurd hprep (by unfold executor_prepare; simp)
            · exact absurd hprep (by unfold executor_prepare; simp)
            · revert hprep
              unfold executor_prepare
              rw [if_neg (by decide), if_neg (by decide), if_pos rfl]
              split
              · split
                · split <;> simp
                · simp
              · simp
            · obtain ⟨w, hw, hrain⟩ := hnote rfl
              unfold executor_prepare at hprep
              rw [if_neg (by decide), if_neg (by decide), if_neg (by decide),
                if_pos rfl] at hprep
              split at hprep
              · rename_i hweq
                rw [hweq] at hw
                cases hw
              · rename_i w' hw'
                rw [hw'] at hw
                cases Option.some.inj hw
                split at hprep
                · rename_i hcond
                  exact hcond hrain
                · simp at hprep
          · rename_i args desc hprep
            rw [herr]
            exact ⟨rfl, rfl, rfl, rfl, rfl, rfl⟩
  refine ⟨hfields.1, hfields.2.1, hfields.2.2.1, hfields.2.2.2.1,
    hfields.2.2.2.2.1, hfields.2.2.2.2.2, ?_⟩
  unfold pendingTask
  have h1 : (applyUpdate s (tool_executor_node tools inp s)).user_query =
      s.user_query := rfl
  have h2 : (applyUpdate s (tool_executor_node tools inp s)).tool_calls_made =
      s.tool_calls_made := by
    rw [applyUpdate_tool_calls, hfields.1, List.append_nil]
  have h3 : (applyUpdate s (tool_executor_node tools inp s)).skipped_tasks =
      s.skipped_tasks := by
    rw [applyUpdate_skipped, hfields.2.1, List.append_nil]
  rw [h1, h2, h3]
  exact hpend

/-- Weather tool for the C10 instance. -/
def failWeatherTool : ToolRecord :=
  ⟨"tool-weather", "天气查询", "查询城市天气", "builtin", some "get_weather", true⟩

/-- Executor inputs whose tool call raises. -/
def failInputs : ExecInputs :=
  ⟨.error "connection reset", .ok "", ⟨"20260101", "2026-01-01 08:00", "2026-01-01T08:00:00"⟩⟩

/-- Run state with a pending weather task. -/
def failState : AgentState := initialState "北京明天天气怎么样" false 10

/-- Concrete instance of C10: the failed weather call records nothing and
weather stays pending. -/
theorem tool_failure_keeps_task_pending_witness :
    (tool_executor_node [failWeatherTool] failInputs failState).tool_calls_made = [] ∧
    (tool_executor_node [failWeatherTool] failInputs failState).skipped_tasks = [] ∧
    (tool_executor_node [failWeatherTool] failInputs failState).error =
      some "connection reset" ∧
    pendingTask (applyUpdate failState
      (tool_executor_node [failWeatherTool] failInputs failState)) = some "weather" := by
  obtain ⟨h1, h2, h3, h4, h5, h6, h7⟩ :=
    tool_failure_keeps_task_pending [failWeatherTool] failInputs failState "weather"
      failWeatherTool "connection reset" (by decide) (by decide)
      (fun h => absurd h (by decide)) rfl
  exact ⟨h1, h2, h4, h7⟩

end Agent
